import Mathlib

/-!
Verification development for `web_media_server.py`, a single-file local media
server.  The Python source is shallowly embedded: strings are `List Char`,
byte contents are `List Nat`, filesystem facts and external-tool effects are
explicit parameters.  Path functions model the POSIX `os.path` behaviour
(the program uses the generic `os.path` API; on POSIX hosts this is exactly
`posixpath`).
-/

/-- Characters that Python's `int(str)` strips from both ends (ASCII whitespace). -/
def isPyWs (c : Char) : Bool :=
  c = ' ' || c = '\t' || c = '\n' || c = '\x0d' || c = '\x0b' || c = '\x0c'

/-- ASCII decimal digit test. -/
def isDigitCh (c : Char) : Bool :=
  '0' ≤ c && c ≤ '9'

/-- Numeric value of an ASCII digit. -/
def digitVal (c : Char) : Nat :=
  c.toNat - '0'.toNat

/-- Strip leading and trailing whitespace, as `int(str)` does before parsing. -/
def pyStrip (l : List Char) : List Char :=
  ((l.dropWhile isPyWs).reverse.dropWhile isPyWs).reverse

/-- Digit-run parser for Python `int`: digits with single underscores allowed
between digits (no leading/trailing/double underscore). -/
def pyDigitsGo (acc : Nat) : List Char → Option Nat
  | [] => some acc
  | '_' :: c :: rest =>
      if isDigitCh c then pyDigitsGo (acc * 10 + digitVal c) rest else none
  | c :: rest =>
      if isDigitCh c then pyDigitsGo (acc * 10 + digitVal c) rest else none

/-- Parse a nonempty digit run (first char must be a digit). -/
def pyDigits : List Char → Option Nat
  | [] => none
  | c :: rest => if isDigitCh c then pyDigitsGo (digitVal c) rest else none

/-- Model of Python's `int(s)` on a decimal string: strip whitespace, optional
single sign, digit run.  `none` models a raised `ValueError`. -/
def pythonIntL (l : List Char) : Option Int :=
  match pyStrip l with
  | [] => none
  | c :: rest =>
    if c = '+' then (pyDigits rest).map Int.ofNat
    else if c = '-' then (pyDigits rest).map (fun n => -(Int.ofNat n))
    else (pyDigits (c :: rest)).map Int.ofNat

/-- Model of Python's `str.split(sep)` for a one-character separator: splits at
every occurrence, keeping empty pieces (`"".split(sep) == [""]`). -/
def splitOnChar (sep : Char) : List Char → List (List Char)
  | [] => [[]]
  | c :: rest =>
      if c = sep then [] :: splitOnChar sep rest
      else
        match splitOnChar sep rest with
        | h :: t => (c :: h) :: t
        | [] => [[c]]

/-- Model of `posixpath.join(a, b)` for a single right operand. -/
def posixJoin (a b : List Char) : List Char :=
  if ['/'].isPrefixOf b then b
  else if a = [] || a.getLast? = some '/' then a ++ b
  else a ++ '/' :: b

/-- One step of `posixpath.normpath`'s component loop: skip `""`/`"."`, append
ordinary components, pop on `".."` unless at a relative root or after `".."`. -/
def normStep (initialSlashes : Nat) (acc : List (List Char)) (comp : List Char) :
    List (List Char) :=
  if comp = [] || comp = ['.'] then acc
  else if comp ≠ ['.', '.'] ∨ (initialSlashes = 0 ∧ acc = []) ∨
      (acc ≠ [] ∧ acc.getLast? = some ['.', '.']) then acc ++ [comp]
  else if acc ≠ [] then acc.dropLast
  else acc

/-- Model of `posixpath.normpath`: collapse `.`/`..`/empty components,
preserving one or exactly two leading slashes. -/
def posixNormpath (p : List Char) : List Char :=
  if p = [] then ['.']
  else
    let initialSlashes : Nat :=
      if ['/', '/'].isPrefixOf p ∧ ¬ ['/', '/', '/'].isPrefixOf p then 2
      else if ['/'].isPrefixOf p then 1 else 0
    let comps := splitOnChar '/' p
    let newComps := comps.foldl (normStep initialSlashes) []
    let res := List.replicate initialSlashes '/' ++ List.intercalate ['/'] newComps
    if res = [] then ['.'] else res

/-- Hex digit value used by percent-decoding. -/
def hexDigitVal (c : Char) : Option Nat :=
  if '0' ≤ c ∧ c ≤ '9' then some (c.toNat - '0'.toNat)
  else if 'a' ≤ c ∧ c ≤ 'f' then some (c.toNat - 'a'.toNat + 10)
  else if 'A' ≤ c ∧ c ≤ 'F' then some (c.toNat - 'A'.toNat + 10)
  else none

/-- Model of `urllib.parse.unquote` restricted to single-byte (ASCII) escapes:
a valid `%hh` pair decodes to the character with that code, an invalid escape
is kept verbatim. -/
def unquote : List Char → List Char
  | [] => []
  | '%' :: h1 :: h2 :: rest =>
      match hexDigitVal h1, hexDigitVal h2 with
      | some a, some b => Char.ofNat (16 * a + b) :: unquote rest
      | _, _ => '%' :: unquote (h1 :: h2 :: rest)
  | c :: rest => c :: unquote rest

/-- Index of the last occurrence of `c` in `l`, or `-1` (Python `str.rfind`). -/
def rfindIdx (c : Char) (l : List Char) : Int :=
  match l.reverse.findIdx? (fun x => x == c) with
  | some k => (l.length : Int) - 1 - k
  | none => -1

/-- Model of `posixpath.splitext`: the extension starts at the last dot that
lies after the last slash, unless the basename up to that dot is all dots. -/
def splitext (p : List Char) : List Char × List Char :=
  let sepIndex := rfindIdx '/' p
  let dotIndex := rfindIdx '.' p
  if sepIndex < dotIndex then
    let start := (sepIndex + 1).toNat
    let stop := dotIndex.toNat
    let middle := (p.drop start).take (stop - start)
    if middle.all (fun x => x == '.') then (p, [])
    else (p.take stop, p.drop stop)
  else (p, [])

/-- Lower-cased extension of a path, modelling `os.path.splitext(p)[1].lower()`. -/
def loweredExt (p : List Char) : List Char :=
  (splitext p).2.map Char.toLower

/-- Extension set `IMAGE_EXT` from the source. -/
def IMAGE_EXT : List (List Char) :=
  [".jpg".toList, ".jpeg".toList, ".png".toList, ".gif".toList,
   ".webp".toList, ".bmp".toList, ".tif".toList, ".tiff".toList]

/-- Extension set `VIDEO_EXT` from the source. -/
def VIDEO_EXT : List (List Char) :=
  [".mp4".toList, ".mov".toList, ".m4v".toList, ".avi".toList,
   ".mkv".toList, ".wmv".toList, ".flv".toList]

/-- Extension set `AUDIO_EXT` from the source. -/
def AUDIO_EXT : List (List Char) :=
  [".mp3".toList, ".wav".toList, ".flac".toList, ".ogg".toList,
   ".aac".toList, ".m4a".toList, ".wma".toList]

/-- Strip one leading slash, modelling `if rel.startswith("/"): rel = rel[1:]`. -/
def stripLeadSlash (rel : List Char) : List Char :=
  if ['/'].isPrefixOf rel then rel.drop 1 else rel

/-- Resolved absolute path for a server-tree request:
`os.path.normpath(os.path.join(BASE_SERVER_DIR, unquoted-relative-path))`. -/
def treeResolvedPath (baseServerDir pathOnly : List Char) : List Char :=
  posixNormpath (posixJoin baseServerDir (stripLeadSlash (unquote pathOnly)))

/-- Outcome of the server-tree branch of `FileBrowser.do_GET`. -/
inductive ServeResult where
  | dirListing (full rel : List Char)
  | player (full rel : List Char)
  | rawFile (full : List Char)
deriving DecidableEq

/-- Model of the server-tree branch of `FileBrowser.do_GET` (source lines
1853-1872): decode the URL path, resolve it under `BASE_SERVER_DIR`, fall back
to the root when the `startswith` containment check fails, then dispatch to
directory listing, HTML player (`view=1`) or raw file streaming.  `isDir` is
the filesystem oracle for `os.path.isdir`; `viewQuery` models
`"view=1" in parsed.query`. -/
def serve_tree_route (baseServerDir pathOnly : List Char)
    (isDir : List Char → Bool) (viewQuery : Bool) : ServeResult :=
  let rel1 := stripLeadSlash (unquote pathOnly)
  let full0 := treeResolvedPath baseServerDir pathOnly
  let baseNorm := posixNormpath baseServerDir
  let p := if ¬ baseNorm.isPrefixOf full0 then (baseNorm, ([] : List Char))
           else (full0, rel1)
  if isDir p.1 then .dirListing p.1 p.2
  else if viewQuery then .player p.1 p.2
  else .rawFile p.1

/-- Outcome of a derivative (`/__thumbs__/` or `/__preview__/`) request. -/
inductive DerivResult where
  | notConfigured
  | forbidden403
  | notFound404
  | serveBytes (full : List Char)
deriving DecidableEq

/-- Model of the `/__thumbs__/` branch of `FileBrowser.do_GET` (source lines
1812-1830).  `pathAfterMarker` is the URL path with the `/__thumbs__/` marker
already removed; `fileExists` is the oracle for `os.path.exists`. -/
def thumbs_route (baseThumbDir : Option (List Char)) (pathAfterMarker : List Char)
    (fileExists : List Char → Bool) : DerivResult :=
  match baseThumbDir with
  | none => .notConfigured
  | some base =>
    let full := posixNormpath (posixJoin base (unquote pathAfterMarker))
    let rootNorm := posixNormpath base
    if ¬ rootNorm.isPrefixOf full then .forbidden403
    else if ¬ fileExists full then .notFound404
    else .serveBytes full

/-- Model of the `/__preview__/` branch of `FileBrowser.do_GET` (source lines
1833-1851), structurally identical to the thumbnail branch. -/
def preview_route (baseCoverDir : Option (List Char)) (pathAfterMarker : List Char)
    (fileExists : List Char → Bool) : DerivResult :=
  match baseCoverDir with
  | none => .notConfigured
  | some base =>
    let full := posixNormpath (posixJoin base (unquote pathAfterMarker))
    let rootNorm := posixNormpath base
    if ¬ rootNorm.isPrefixOf full then .forbidden403
    else if ¬ fileExists full then .notFound404
    else .serveBytes full

/-- True path containment in the sense of the specification: after
normalization, `p` is `root` itself or lies strictly below it (segment-wise). -/
def resolvesUnder (root p : List Char) : Bool :=
  p = root || (root ++ ['/']).isPrefixOf p

/-- Model of `str.replace("bytes=", "")`: remove every (left-to-right,
non-overlapping) occurrence of the 6-character pattern. -/
def stripBytesEq : List Char → List Char
  | 'b' :: 'y' :: 't' :: 'e' :: 's' :: '=' :: rest => stripBytesEq rest
  | c :: rest => c :: stripBytesEq rest
  | [] => []

/-- Model of the Range-header parse in `FileBrowser.send_file` (source lines
2124-2128): split the header (minus `bytes=`) on `-`; an empty first piece
defaults the start to `0`, an empty second piece defaults the end to
`file_size - 1`; the end is clamped to `file_size - 1`.  A missing second
piece (`IndexError`) or a non-integer piece (`ValueError`) yields `none`,
modelling the exception caught by the caller. -/
def parse_range (header : List Char) (fileSize : Int) : Option (Int × Int) :=
  match splitOnChar '-' (stripBytesEq header) with
  | [] => none
  | p0 :: restParts =>
    let startO : Option Int := if p0 = [] then some 0 else pythonIntL p0
    match startO, restParts with
    | some s, p1 :: _ =>
      let endO : Option Int := if p1 = [] then some (fileSize - 1) else pythonIntL p1
      match endO with
      | some e => some (s, min e (fileSize - 1))
      | none => none
    | _, _ => none

/-- Model of `f.seek(offset)` followed by `f.read(count)` on the
`BufferedReader` returned by `open(filepath, "rb")`: a count of exactly `-1`
reads to end-of-file, a nonnegative count reads at most that many bytes, and
any count below `-1` raises `ValueError: read length must be non-negative or
-1` — modelled as `none`. -/
def pyRead (content : List Nat) (offset count : Int) : Option (List Nat) :=
  let rest := content.drop offset.toNat
  if count = -1 then some rest
  else if count < 0 then none
  else some (rest.take count.toNat)

/-- Content-type table used by `FileBrowser.send_file`. -/
def sendFileMimeTable : List (List Char × String) :=
  [(".jpg".toList, "image/jpeg"), (".jpeg".toList, "image/jpeg"),
   (".png".toList, "image/png"), (".gif".toList, "image/gif"),
   (".webp".toList, "image/webp"), (".mp4".toList, "video/mp4"),
   (".mov".toList, "video/quicktime"), (".m4v".toList, "video/quicktime"),
   (".avi".toList, "video/x-msvideo"), (".mkv".toList, "video/x-matroska"),
   (".mp3".toList, "audio/mpeg"), (".wav".toList, "audio/wav"),
   (".flac".toList, "audio/flac"), (".ogg".toList, "audio/ogg"),
   (".aac".toList, "audio/mp4"), (".m4a".toList, "audio/mp4")]

/-- Mime lookup with the `application/octet-stream` default. -/
def send_file_mime (filepath : List Char) : String :=
  match sendFileMimeTable.find? (fun e => e.1 == loweredExt filepath) with
  | some e => e.2
  | none => "application/octet-stream"

/-- Formatted `Content-Range` header value, `f"bytes {start}-{end}/{file_size}"`. -/
def contentRangeStr (s e n : Int) : String :=
  "bytes " ++ toString s ++ "-" ++ toString e ++ "/" ++ toString n

/-- HTTP response assembled by `FileBrowser.send_file`.  The status line and
headers are sent before the body is read, so they are always present; `body`
is the list of body bytes actually written to the socket, and `aborted` is
set when the body read raised (`ValueError` from `f.read` on a count below
`-1`), in which case the handler dies after the headers with no body bytes
written. -/
structure FileResponse where
  status : Nat
  contentType : String
  acceptRanges : Bool
  contentRange : Option String
  contentLength : Int
  body : List Nat
  aborted : Bool
deriving DecidableEq

/-- Model of `FileBrowser.send_file` (source lines 2094-2153) for an existing
file with byte contents `content`.  A present, nonempty `Range` header takes
the partial-content path (status 206) with the parse-failure default
`(0, file_size - 1)`; an absent (or empty, hence falsy) header takes the
full-file path (status 200). -/
def send_file (content : List Nat) (filepath : List Char)
    (rangeHeader : Option (List Char)) : FileResponse :=
  let fileSize : Int := content.length
  let mime := send_file_mime filepath
  match rangeHeader with
  | some (c :: hs) =>
    let se := (parse_range (c :: hs) fileSize).getD (0, fileSize - 1)
    let chunk := se.2 - se.1 + 1
    let readResult := pyRead content se.1 chunk
    { status := 206, contentType := mime, acceptRanges := true,
      contentRange := some (contentRangeStr se.1 se.2 fileSize),
      contentLength := chunk, body := readResult.getD [],
      aborted := readResult.isNone }
  | _ =>
    { status := 200, contentType := mime, acceptRanges := true,
      contentRange := none, contentLength := fileSize, body := content,
      aborted := false }

/-- Page count computed by `FileBrowser.send_dir`:
`max(1, (total_items + page_size - 1) // page_size)` with `page_size = 10`. -/
def total_pages (numItems : Nat) : Nat :=
  max 1 ((numItems + 10 - 1) / 10)

/-- Page number before clamping: `max(1, int(page_param))`, with a parse
failure caught and replaced by `1`. -/
def page_from_param (pageStr : List Char) : Int :=
  match pythonIntL pageStr with
  | some v => max 1 v
  | none => 1

/-- Effective page in paged mode: `if page > total_pages: page = total_pages`. -/
def effective_page (pageStr : List Char) (numItems : Nat) : Int :=
  let p := page_from_param pageStr
  if (total_pages numItems : Int) < p then (total_pages numItems : Int) else p

/-- Entries rendered on the effective page:
`items[start_idx:start_idx + page_size]`. -/
def items_to_show (items : List String) (pageStr : List Char) : List String :=
  let p := effective_page pageStr items.length
  (items.drop ((p - 1) * 10).toNat).take 10

/-- Stable insert for the size-ascending sort: a later-discovered entry goes
after every already-placed entry of less-or-equal size. -/
def orderedInsertBySize (a : String × Nat) : List (String × Nat) → List (String × Nat)
  | [] => [a]
  | b :: l => if a.2 ≤ b.2 then a :: b :: l else b :: orderedInsertBySize a l

/-- Model of `build_sorted_file_list` (source lines 1009-1029).  The `os.walk`
enumeration is external I/O, so the walk's output — one `(rel_path, size)`
pair per file, in discovery order — is the input; the function models
`result.sort(key=lambda x: x[1])`, which CPython specifies as a stable sort
keyed by size. -/
def build_sorted_file_list : List (String × Nat) → List (String × Nat)
  | [] => []
  | a :: l => orderedInsertBySize a (build_sorted_file_list l)

/-- Scale filter expression chosen by `convert_video`. -/
def videoScaleExpr (w h : Nat) : String :=
  if w = 0 ∨ h = 0 then "scale=1024:-2"
  else if h ≤ w then "scale=1024:-2" else "scale=-2:768"

/-- Model of the ffmpeg argv construction in `convert_video` (source lines
958-998).  `probedFps` is `ffprobe_fps`'s result, `none` modelling a probe
failure, for which that helper substitutes `30.0`; frame rates are embedded
as rationals (ffprobe reports `a/b` ratios).  When the rate exceeds 30 the
pair `["-r", "30"]` is spliced in at `cmd.index("-c:v")`
(`cmd[insert_at:insert_at] = ["-r", "30"]`), then `dst` is appended. -/
def convert_video_base (ffmpeg : String) (w h : Nat) (src : String) : List String :=
  [ffmpeg, "-noautorotate", "-i", src, "-vf", videoScaleExpr w h, "-c:v", "libx264",
   "-profile:v", "baseline", "-level", "3.0", "-pix_fmt", "yuv420p",
   "-b:v", "4000k", "-maxrate", "4500k", "-bufsize", "9000k",
   "-c:a", "aac", "-b:a", "320k", "-ar", "48000",
   "-movflags", "+faststart", "-y"]

/-- Rate-cap splice and destination append from `convert_video`. -/
def convert_video_cmd (ffmpeg : String) (w h : Nat) (probedFps : Option ℚ)
    (src dst : String) : List String :=
  let fps : ℚ := probedFps.getD 30
  let cmd := convert_video_base ffmpeg w h src
  let cmd2 :=
    if 30 < fps then
      let i := cmd.indexOf "-c:v"
      cmd.take i ++ ["-r", "30"] ++ cmd.drop i
    else cmd
  cmd2 ++ [dst]

/-- Per-entry outcome of the mirror phase (`process_file_to_server`). -/
inductive SyncAction where
  | noServerDir
  | skipMode
  | skipCopy
  | doCopy
  | convVideo (overwrite : Bool)
  | convImage (overwrite : Bool)
deriving DecidableEq

/-- Destination relative path chosen by `process_file_to_server`: videos map
to `.mp4`, images to `.jpg` (same base name), everything else keeps its name. -/
def mirror_dst_rel (sourceFolder relPath : List Char) : List Char :=
  let ext := loweredExt (posixJoin sourceFolder relPath)
  if ext ∈ AUDIO_EXT then relPath
  else if ext ∈ VIDEO_EXT then (splitext relPath).1 ++ ".mp4".toList
  else if ext ∈ IMAGE_EXT then (splitext relPath).1 ++ ".jpg".toList
  else relPath

/-- Model of the decision logic of `process_file_to_server` (source lines
1174-1248).  `dstExists` is the `os.path.exists(dst)` oracle; `srcHash` and
`dstHash` are the `sha256_file` results with `none` modelling a raised
exception (which the source catches and ignores, falling through to the
copy).  Audio and non-media entries are copied unless the destination exists
with an equal hash; video and image entries are always converted, the
destination's existence only switching the log line to `[OVERWRITE ...]`. -/
def process_file_to_server (baseServerDir : Option (List Char)) (mode : List Char)
    (sourceFolder relPath : List Char) (dstExists : Bool)
    (srcHash dstHash : Option (List Char)) : SyncAction :=
  match baseServerDir with
  | none => .noServerDir
  | some _ =>
    if mode = "nocopytotemp".toList then .skipMode
    else
      let ext := loweredExt (posixJoin sourceFolder relPath)
      if ext ∈ AUDIO_EXT ∨ (ext ∉ VIDEO_EXT ∧ ext ∉ IMAGE_EXT) then
        if dstExists then
          match srcHash, dstHash with
          | some a, some b => if a = b then .skipCopy else .doCopy
          | _, _ => .doCopy
        else .doCopy
      else if ext ∈ VIDEO_EXT then .convVideo dstExists
      else .convImage dstExists

/-- Per-entry outcome of the thumbnail phase loop. -/
inductive ThumbAction where
  | notImage
  | skip
  | generate
deriving DecidableEq

/-- Thumbnail naming rule: `base_no_ext + "_thumb.jpg"`. -/
def thumb_rel (relPath : List Char) : List Char :=
  (splitext relPath).1 ++ "_thumb.jpg".toList

/-- Model of one iteration of `generate_thumbnails_first` (source lines
1146-1171): non-image entries are passed over; for images, the existing
thumbnail file state `thumbState` (`none` = absent, `some n` = present with
size `n`) is tested with `os.path.exists` only — size is not consulted. -/
def generate_thumbnails_step (sourceFolder relPath : List Char)
    (thumbState : Option Nat) : ThumbAction :=
  let ext := loweredExt (posixJoin sourceFolder relPath)
  if ext ∉ IMAGE_EXT then .notImage
  else if thumbState.isSome then .skip
  else .generate

/-- Model of `remove_empty_dirs` with the default stop (`_temp` root):
`chain` lists, deepest first, each directory strictly below the stop on the
path from the cover directory upward, `true` meaning `os.rmdir` succeeds
(the directory is empty).  The walk removes directories until the first
`rmdir` failure or until the stop is reached (the stop itself is excluded
from `chain` and never removed); the result is the number removed. -/
def remove_empty_dirs (chain : List Bool) : Nat :=
  (chain.takeWhile id).length

/-- Model of `extract_audio_cover` (source lines 1038-1098).  External-tool
effects are parameters: `copyRaised` tells whether the stream-copy
`subprocess.run(..., check=True)` raised; `copyFile` / `frameFile` give the
destination file state (`none` = absent, `some n` = size `n`) after the
stream-copy and after the frame-export fallback (whose own exception the
source catches and ignores, so only its file effect matters).  The result is
`(returned flag, final destination file state, number of directories removed
by the cleanup, with` `none` `when the cleanup never ran)`.
This definition is the fallback stage (source lines 1067-1098): frame export,
final existence/size check, zero-byte cleanup and empty-directory removal. -/
def cover_fallback_stage (frameFile : Option Nat) (chain : List Bool) :
    Bool × Option Nat × Option Nat :=
  match frameFile with
  | some (n + 1) => (true, some (n + 1), none)
  | some 0 => (false, none, some (remove_empty_dirs chain))
  | none => (false, none, some (remove_empty_dirs chain))

/-- Dispatch between the stream-copy attempt and the fallback: the stream-copy
result is kept only when its `subprocess.run` did not raise AND the
destination exists with a positive size. -/
def extract_audio_cover (copyRaised : Bool) (copyFile frameFile : Option Nat)
    (chain : List Bool) : Bool × Option Nat × Option Nat :=
  match copyRaised, copyFile with
  | false, some (n + 1) => (true, some (n + 1), none)
  | _, _ => cover_fallback_stage frameFile chain

/-- C1: the server-tree containment check is a raw string-prefix test on the
normalized path, so a sibling directory whose name extends the root's name
escapes it: with root `/srv/_server`, the decoded request path
`/../_server2/secret` resolves to `/srv/_server2/secret`, which passes
`startswith` and is served as a raw file even though it is not under the
root — the claimed fallback to the root listing does not happen. -/
theorem do_GET_sibling_escape :
    serve_tree_route ("/srv/_server".toList) ("/../_server2/secret".toList)
        (fun _ => false) false
      = ServeResult.rawFile ("/srv/_server2/secret".toList)
    ∧ resolvesUnder ("/srv/_server".toList) ("/srv/_server2/secret".toList) = false := by
  decide

/-- C2 counterexample: in copytotemp (mirror) mode, a video entry whose
converted destination already exists is NOT skipped — the code takes the
`[OVERWRITE VIDEO]` branch and re-converts. -/
theorem mirror_video_overwrite_cex :
    process_file_to_server (some ("/t/_server".toList)) ("copytotemp".toList)
        ("/s".toList) ("a.mov".toList) true (some ("h1".toList)) (some ("h1".toList))
      = SyncAction.convVideo true
    ∧ SyncAction.convVideo true ≠ SyncAction.skipCopy := by
  decide

/-- C3 counterexample: a zero-byte existing thumbnail file (state `some 0`)
makes the thumbnail phase skip regeneration — only `os.path.exists` is
consulted, never the size. -/
theorem zero_byte_thumb_skip_cex :
    generate_thumbnails_step ("/s".toList) ("a.jpg".toList) (some 0)
      = ThumbAction.skip
    ∧ ThumbAction.skip ≠ ThumbAction.generate := by
  decide

/-- C4 counterexample: a Range header that fails to parse (`bytes=abc`) is
answered with status 206 and a Content-Range header, not with the plain
200 response produced when no Range header is sent. -/
theorem unparsable_range_206_cex :
    (send_file [10, 20, 30] ("f.bin".toList) (some ("bytes=abc".toList))).status = 206
    ∧ send_file [10, 20, 30] ("f.bin".toList) (some ("bytes=abc".toList))
        ≠ send_file [10, 20, 30] ("f.bin".toList) none := by
  decide

/-- C6 counterexample: a traversal under `/__thumbs__/` is answered with an
explicit 403 Forbidden error, not with the thumbnail root's listing. -/
theorem thumbs_traversal_403_cex :
    thumbs_route (some ("/srv/_temp/_images/_thumbnails".toList))
        ("../../x".toList) (fun _ => true)
      = DerivResult.forbidden403
    ∧ preview_route (some ("/srv/_temp/_images/_preview".toList))
        ("../../x".toList) (fun _ => true)
      = DerivResult.forbidden403 := by
  decide

/-- The video and audio extension sets are disjoint. -/
theorem video_ext_not_audio : ∀ x ∈ VIDEO_EXT, x ∉ AUDIO_EXT := by decide

/-- The image and audio extension sets are disjoint. -/
theorem image_ext_not_audio : ∀ x ∈ IMAGE_EXT, x ∉ AUDIO_EXT := by decide

/-- The image and video extension sets are disjoint. -/
theorem image_ext_not_video : ∀ x ∈ IMAGE_EXT, x ∉ VIDEO_EXT := by decide

/-- C2 (amended): in copytotemp mode the mirror phase never skips a
conversion — video and image entries are (re-)converted whether or not the
destination exists (existence only marks the overwrite log branch) — while
copy-class entries (audio and non-media) are skipped exactly when the
destination exists and both hashes were computed and agree. -/
theorem mirror_conversion_policy (base sourceFolder relPath : List Char)
    (dstExists : Bool) (srcHash dstHash : Option (List Char)) :
    (loweredExt (posixJoin sourceFolder relPath) ∈ VIDEO_EXT →
      process_file_to_server (some base) ("copytotemp".toList) sourceFolder relPath
          dstExists srcHash dstHash = SyncAction.convVideo dstExists) ∧
    (loweredExt (posixJoin sourceFolder relPath) ∈ IMAGE_EXT →
      process_file_to_server (some base) ("copytotemp".toList) sourceFolder relPath
          dstExists srcHash dstHash = SyncAction.convImage dstExists) ∧
    ((loweredExt (posixJoin sourceFolder relPath) ∈ AUDIO_EXT ∨
        (loweredExt (posixJoin sourceFolder relPath) ∉ VIDEO_EXT ∧
         loweredExt (posixJoin sourceFolder relPath) ∉ IMAGE_EXT)) →
      (process_file_to_server (some base) ("copytotemp".toList) sourceFolder relPath
          dstExists srcHash dstHash = SyncAction.skipCopy ↔
        dstExists = true ∧ ∃ hv, srcHash = some hv ∧ dstHash = some hv)) := by
  refine ⟨?_, ?_, ?_⟩
  · intro hv
    have hna := video_ext_not_audio _ hv
    simp only [process_file_to_server]
    rw [if_neg (by decide), if_neg (fun hor => hor.elim hna (fun hni => hni.1 hv)),
      if_pos hv]
  · intro hi
    have hna := image_ext_not_audio _ hi
    have hnv := image_ext_not_video _ hi
    simp only [process_file_to_server]
    rw [if_neg (by decide), if_neg (fun hor => hor.elim hna (fun hni => hni.2 hi)),
      if_neg hnv]
  · intro hco
    simp only [process_file_to_server]
    rw [if_neg (by decide), if_pos hco]
    cases dstExists with
    | false => simp
    | true =>
      rcases srcHash with _ | a <;> rcases dstHash with _ | b <;> simp
      exact eq_comm

/-- C2 witness: a video entry with an existing destination is re-converted. -/
theorem mirror_conversion_policy_witness :
    process_file_to_server (some ("/t/_server".toList)) ("copytotemp".toList)
        ("/s".toList) ("b.avi".toList) true none none = SyncAction.convVideo true := by
  exact (mirror_conversion_policy ("/t/_server".toList) ("/s".toList) ("b.avi".toList)
    true none none).1 (by decide)

/-- C3 (amended): for an image entry the thumbnail phase's sole freshness
check is `os.path.exists` — it generates exactly when no thumbnail file is
present, and any existing thumbnail file (zero-byte included) suppresses
regeneration. -/
theorem thumbnail_skip_existence_only (sourceFolder relPath : List Char)
    (thumbState : Option Nat)
    (himg : loweredExt (posixJoin sourceFolder relPath) ∈ IMAGE_EXT) :
    (generate_thumbnails_step sourceFolder relPath thumbState = ThumbAction.generate
      ↔ thumbState = none) ∧
    (generate_thumbnails_step sourceFolder relPath thumbState = ThumbAction.skip
      ↔ thumbState ≠ none) := by
  unfold generate_thumbnails_step
  rw [if_neg (not_not_intro himg)]
  rcases thumbState with _ | n <;> simp

/-- C3 witness: with no thumbnail present the phase generates one. -/
theorem thumbnail_skip_existence_only_witness :
    generate_thumbnails_step ("/s".toList) ("b.png".toList) none = ThumbAction.generate := by
  exact ((thumbnail_skip_existence_only ("/s".toList) ("b.png".toList) none
    (by decide)).1).mpr rfl

/-- C4 (amended): a nonempty Range header that fails to parse is answered on
the partial-content path with the caught-exception default range
`(0, file_size - 1)`: status 206 (not 200), a `Content-Range` covering the
whole file, the full file body, and the range-support advertisement. -/
theorem send_file_unparsable_range (content : List Nat) (fp : List Char)
    (c : Char) (hs : List Char)
    (hp : parse_range (c :: hs) (content.length : Int) = none) :
    send_file content fp (some (c :: hs)) =
      { status := 206, contentType := send_file_mime fp, acceptRanges := true,
        contentRange := some (contentRangeStr 0 ((content.length : Int) - 1)
          (content.length : Int)),
        contentLength := (content.length : Int), body := content,
        aborted := false } := by
  have hchunk : ((content.length : Int) - 1 - 0 + 1) = (content.length : Int) := by omega
  have hbody : pyRead content 0 (content.length : Int) = some content := by
    unfold pyRead
    rw [if_neg (by omega), if_neg (by omega)]
    simp
  simp only [send_file, hp, Option.getD, hchunk, hbody, Option.getD_some,
    Option.isNone_some]

/-- C4 witness: `bytes=abc` on a 3-byte file takes the 206 full-range path. -/
theorem send_file_unparsable_range_witness :
    send_file [7, 8, 9] ("f.bin".toList) (some ('b' :: "ytes=abc".toList)) =
      { status := 206, contentType := send_file_mime ("f.bin".toList),
        acceptRanges := true,
        contentRange := some (contentRangeStr 0 (([7, 8, 9] : List Nat).length - 1)
          (([7, 8, 9] : List Nat).length : Int)),
        contentLength := (([7, 8, 9] : List Nat).length : Int), body := [7, 8, 9],
        aborted := false } :=
  send_file_unparsable_range [7, 8, 9] ("f.bin".toList) 'b' ("ytes=abc".toList)
    (by decide)

/-- C6 (amended): when the normalized-string-prefix containment check fails,
the three roots react differently — the server tree falls back to its own
root listing, but the thumbnail and preview roots answer an explicit 403
Forbidden error (never a listing). -/
theorem traversal_fallback_by_root
    (base pathOnly tb pt pb pp : List Char)
    (isDir fe1 fe2 : List Char → Bool) (view : Bool)
    (h1 : (posixNormpath base).isPrefixOf (treeResolvedPath base pathOnly) = false)
    (hdir : isDir (posixNormpath base) = true)
    (h2 : (posixNormpath tb).isPrefixOf
        (posixNormpath (posixJoin tb (unquote pt))) = false)
    (h3 : (posixNormpath pb).isPrefixOf
        (posixNormpath (posixJoin pb (unquote pp))) = false) :
    serve_tree_route base pathOnly isDir view
      = ServeResult.dirListing (posixNormpath base) [] ∧
    thumbs_route (some tb) pt fe1 = DerivResult.forbidden403 ∧
    preview_route (some pb) pp fe2 = DerivResult.forbidden403 := by
  refine ⟨?_, ?_, ?_⟩
  · simp [serve_tree_route, h1, hdir]
  · simp [thumbs_route, h2]
  · simp [preview_route, h3]

/-- C6 witness: a concrete traversal against each root. -/
theorem traversal_fallback_by_root_witness :
    serve_tree_route ("/srv/_server".toList) ("/../../etc/passwd".toList)
        (fun p => p == "/srv/_server".toList) false
      = ServeResult.dirListing (posixNormpath ("/srv/_server".toList)) [] ∧
    thumbs_route (some ("/srv/_t".toList)) ("../x".toList) (fun _ => true)
      = DerivResult.forbidden403 ∧
    preview_route (some ("/srv/_p".toList)) ("../y".toList) (fun _ => true)
      = DerivResult.forbidden403 :=
  traversal_fallback_by_root ("/srv/_server".toList) ("/../../etc/passwd".toList)
    ("/srv/_t".toList) ("../x".toList) ("/srv/_p".toList) ("../y".toList)
    (fun p => p == "/srv/_server".toList) (fun _ => true) (fun _ => true) false
    (by decide) (by decide) (by decide) (by decide)

/-- Inserting permutes: the new element just lands somewhere in the list. -/
theorem perm_orderedInsertBySize (a : String × Nat) (l : List (String × Nat)) :
    (orderedInsertBySize a l).Perm (a :: l) := by
  induction l with
  | nil => exact List.Perm.refl _
  | cons b t ih =>
    unfold orderedInsertBySize
    by_cases hab : a.2 ≤ b.2
    · rw [if_pos hab]
    · rw [if_neg hab]
      exact (ih.cons b).trans (List.Perm.swap a b t)

/-- Inserting into a size-sorted list keeps it size-sorted. -/
theorem pairwise_orderedInsertBySize {a : String × Nat} {l : List (String × Nat)}
    (h : l.Pairwise (fun x y => x.2 ≤ y.2)) :
    (orderedInsertBySize a l).Pairwise (fun x y => x.2 ≤ y.2) := by
  induction l with
  | nil => simp [orderedInsertBySize]
  | cons b t ih =>
    rcases List.pairwise_cons.mp h with ⟨hb, ht⟩
    unfold orderedInsertBySize
    by_cases hab : a.2 ≤ b.2
    · rw [if_pos hab]
      refine List.pairwise_cons.mpr ⟨?_, h⟩
      intro x hx
      rcases List.mem_cons.mp hx with rfl | hx
      · exact hab
      · exact le_trans hab (hb x hx)
    · rw [if_neg hab]
      refine List.pairwise_cons.mpr ⟨?_, ih ht⟩
      intro x hx
      rcases List.mem_cons.mp ((perm_orderedInsertBySize a t).mem_iff.mp hx)
        with rfl | hx2
      · exact (not_le.mp hab).le
      · exact hb x hx2

/-- Filtering one size class commutes with the stable insert: an element of
that class is put in front of the class (everything it jumps over is strictly
smaller), and an element of another class leaves the class untouched. -/
theorem filter_orderedInsertBySize (s : Nat) (a : String × Nat)
    (l : List (String × Nat)) :
    (orderedInsertBySize a l).filter (fun x => x.2 == s)
      = if a.2 = s then a :: l.filter (fun x => x.2 == s)
        else l.filter (fun x => x.2 == s) := by
  induction l with
  | nil =>
    by_cases ha : a.2 = s <;>
      simp [orderedInsertBySize, List.filter_cons, beq_iff_eq, ha]
  | cons b t ih =>
    unfold orderedInsertBySize
    by_cases hab : a.2 ≤ b.2
    · rw [if_pos hab]
      by_cases ha : a.2 = s <;> by_cases hb : b.2 = s <;>
        simp [List.filter_cons, beq_iff_eq, ha, hb]
    · rw [if_neg hab, List.filter_cons]
      by_cases hb : b.2 = s
      · have ha : ¬ a.2 = s := by omega
        simp [hb, ih, ha, List.filter_cons, beq_iff_eq]
      · simp [hb, ih, List.filter_cons, beq_iff_eq]

/-- C7: `build_sorted_file_list` returns a permutation of the walk output
(one entry per file), sorted ascending by size, and — stability — within
every size class the discovery order is preserved exactly. -/
theorem build_sorted_file_list_spec (walk : List (String × Nat)) :
    (build_sorted_file_list walk).Perm walk ∧
    (build_sorted_file_list walk).Pairwise (fun x y => x.2 ≤ y.2) ∧
    ∀ s : Nat, (build_sorted_file_list walk).filter (fun x => x.2 == s)
      = walk.filter (fun x => x.2 == s) := by
  induction walk with
  | nil => exact ⟨List.Perm.refl _, List.Pairwise.nil, fun _ => rfl⟩
  | cons a t ih =>
    obtain ⟨hperm, hsort, hfil⟩ := ih
    refine ⟨?_, ?_, ?_⟩
    · exact (perm_orderedInsertBySize a _).trans (hperm.cons a)
    · exact pairwise_orderedInsertBySize hsort
    · intro s
      show (orderedInsertBySize a (build_sorted_file_list t)).filter _ = _
      rw [filter_orderedInsertBySize s a _, List.filter_cons]
      by_cases ha : a.2 = s
      · rw [if_pos ha, hfil s, if_pos (by simpa using ha)]
      · rw [if_neg ha, hfil s, if_neg (by simpa using ha)]

/-- The computed scale filter string is never one of the option flags. -/
theorem videoScaleExpr_ne (w h : Nat) :
    videoScaleExpr w h ≠ "-c:v" ∧ videoScaleExpr w h ≠ "-r" := by
  unfold videoScaleExpr
  split_ifs <;> exact ⟨by decide, by decide⟩

/-- `cmd.index("-c:v")` finds position 6 of the base command, given that the
ffmpeg path and the source path are not themselves the literal `-c:v`. -/
theorem convert_video_base_indexOf (ffmpeg src : String) (w h : Nat)
    (h1 : ffmpeg ≠ "-c:v") (h2 : src ≠ "-c:v") :
    (convert_video_base ffmpeg w h src).indexOf "-c:v" = 6 := by
  have e1 : (ffmpeg == "-c:v") = false := beq_eq_false_iff_ne.mpr h1
  have e2 : (src == "-c:v") = false := beq_eq_false_iff_ne.mpr h2
  have e3 : (videoScaleExpr w h == "-c:v") = false :=
    beq_eq_false_iff_ne.mpr (videoScaleExpr_ne w h).1
  have l1 : (("-noautorotate" : String) == "-c:v") = false := by decide
  have l2 : (("-i" : String) == "-c:v") = false := by decide
  have l3 : (("-vf" : String) == "-c:v") = false := by decide
  have l4 : (("-c:v" : String) == "-c:v") = true := by decide
  simp [convert_video_base, List.indexOf_cons, e1, e2, e3, l1, l2, l3, l4]

/-- C8: the rate-cap pair `-r 30` is injected, adjacently and immediately
before the `-c:v` argument with every other argument's relative order
unchanged, exactly when the probed frame rate (defaulting to 30 on probe
failure) exceeds 30. -/
theorem convert_video_rate_cap (ffmpeg src dst : String) (w h : Nat)
    (probedFps : Option ℚ)
    (h1 : ffmpeg ≠ "-c:v") (h2 : src ≠ "-c:v")
    (h3 : ffmpeg ≠ "-r") (h4 : src ≠ "-r") (h5 : dst ≠ "-r") :
    30 < probedFps.getD 30 ↔
      ∃ front back, convert_video_cmd ffmpeg w h probedFps src dst
          = front ++ ["-r", "30", "-c:v"] ++ back ∧
        convert_video_cmd ffmpeg w h (some 30) src dst
          = front ++ ["-c:v"] ++ back := by
  constructor
  · intro hfps
    refine ⟨[ffmpeg, "-noautorotate", "-i", src, "-vf", videoScaleExpr w h],
      ["libx264", "-profile:v", "baseline", "-level", "3.0", "-pix_fmt",
       "yuv420p", "-b:v", "4000k", "-maxrate", "4500k", "-bufsize", "9000k",
       "-c:a", "aac", "-b:a", "320k", "-ar", "48000",
       "-movflags", "+faststart", "-y", dst], ?_, ?_⟩
    · simp only [convert_video_cmd]
      rw [if_pos hfps, convert_video_base_indexOf ffmpeg src w h h1 h2]
      simp [convert_video_base]
    · simp only [convert_video_cmd, Option.getD_some]
      rw [if_neg (lt_irrefl (30 : ℚ))]
      simp [convert_video_base]
  · rintro ⟨front, back, hcmd, -⟩
    by_contra hnot
    have hmem : "-r" ∈ convert_video_cmd ffmpeg w h probedFps src dst := by
      rw [hcmd]
      simp
    simp only [convert_video_cmd] at hmem
    rw [if_neg hnot] at hmem
    simp only [convert_video_base, List.mem_append, List.mem_cons,
      List.not_mem_nil, or_false, List.mem_singleton] at hmem
    rcases hmem with hmem | hx
    · rcases hmem with hx | hx | hx | hx | hx | hx | hx | hx | hx | hx | hx |
        hx | hx | hx | hx | hx | hx | hx | hx | hx | hx | hx | hx | hx <;>
      first
        | exact h3 hx.symm
        | exact h4 hx.symm
        | exact (videoScaleExpr_ne w h).2 hx.symm
        | exact absurd hx (by decide)
    · exact h5 hx.symm

/-- C8 witness: a 60 fps 1920x1080 source gets the cap, spliced before
`-c:v`. -/
theorem convert_video_rate_cap_witness :
    (30 : ℚ) < (some (60 : ℚ)).getD 30 ∧
    ∃ front back, convert_video_cmd "ffmpeg" 1920 1080 (some (60 : ℚ))
        "/s/a.mov" "/t/a.mp4" = front ++ ["-r", "30", "-c:v"] ++ back ∧
      convert_video_cmd "ffmpeg" 1920 1080 (some 30) "/s/a.mov" "/t/a.mp4"
        = front ++ ["-c:v"] ++ back := by
  have hlt : (30 : ℚ) < (some (60 : ℚ)).getD 30 := by
    rw [Option.getD_some]
    norm_num
  exact ⟨hlt, (convert_video_rate_cap "ffmpeg" "/s/a.mov" "/t/a.mp4" 1920 1080
    (some (60 : ℚ)) (by decide) (by decide) (by decide) (by decide)
    (by decide)).mp hlt⟩

/-- The cleanup walk never removes more directories than the chain holds (in
particular it never reaches the excluded stop root). -/
theorem remove_empty_dirs_le (chain : List Bool) :
    remove_empty_dirs chain ≤ chain.length := by
  unfold remove_empty_dirs
  exact List.Sublist.length_le (List.takeWhile_sublist id)

/-- Every directory the cleanup walk removes was empty. -/
theorem remove_empty_dirs_all_empty (chain : List Bool) :
    (chain.take (remove_empty_dirs chain)).all id = true := by
  unfold remove_empty_dirs
  induction chain with
  | nil => rfl
  | cons b t ih =>
    cases b with
    | false => rfl
    | true => simpa [List.takeWhile_cons] using ih

/-- The walk stops exactly at the first non-empty directory (if any). -/
theorem remove_empty_dirs_stops (chain : List Bool) :
    ((chain.drop (remove_empty_dirs chain)).head?.getD false) = false := by
  unfold remove_empty_dirs
  induction chain with
  | nil => rfl
  | cons b t ih =>
    cases b with
    | false => rfl
    | true => simpa [List.takeWhile_cons] using ih

/-- C9: `extract_audio_cover` falls back to the frame export whenever the
stream-copy leaves no file or a zero-byte file; it returns `true` exactly
when a non-empty destination file exists afterwards; and when both attempts
fail it leaves no destination file (the zero-byte artifact is removed) and
runs the empty-directory cleanup, which removes exactly the maximal chain of
empty directories strictly below the private temp root. -/
theorem extract_audio_cover_spec (copyRaised : Bool)
    (copyFile frameFile : Option Nat) (chain : List Bool) :
    ((copyFile = none ∨ copyFile = some 0) →
      extract_audio_cover copyRaised copyFile frameFile chain
        = cover_fallback_stage frameFile chain) ∧
    ((extract_audio_cover copyRaised copyFile frameFile chain).1 = true ↔
      ∃ n, 0 < n ∧
        (extract_audio_cover copyRaised copyFile frameFile chain).2.1 = some n) ∧
    ((extract_audio_cover copyRaised copyFile frameFile chain).1 = false →
      (extract_audio_cover copyRaised copyFile frameFile chain).2.1 = none ∧
      (extract_audio_cover copyRaised copyFile frameFile chain).2.2
        = some (remove_empty_dirs chain)) ∧
    (remove_empty_dirs chain ≤ chain.length ∧
      (chain.take (remove_empty_dirs chain)).all id = true ∧
      ((chain.drop (remove_empty_dirs chain)).head?.getD false) = false) := by
  refine ⟨?_, ?_, ?_, remove_empty_dirs_le chain,
    remove_empty_dirs_all_empty chain, remove_empty_dirs_stops chain⟩
  · intro hcf
    rcases hcf with rfl | rfl <;>
      cases copyRaised <;> rfl
  · cases copyRaised <;> rcases copyFile with _ | (_ | n) <;>
      rcases frameFile with _ | (_ | m) <;>
      simp [extract_audio_cover, cover_fallback_stage]
  · cases copyRaised <;> rcases copyFile with _ | (_ | n) <;>
      rcases frameFile with _ | (_ | m) <;>
      simp [extract_audio_cover, cover_fallback_stage]

/-- C9 witness: stream-copy raises, frame export leaves a zero-byte file —
the function reports failure, deletes the artifact and removes the two empty
directories below the temp root. -/
theorem extract_audio_cover_spec_witness :
    extract_audio_cover true (some 0) (some 0) [true, true, false]
      = cover_fallback_stage (some 0) [true, true, false] ∧
    extract_audio_cover true (some 0) (some 0) [true, true, false]
      = (false, none, some 2) := by
  have h := extract_audio_cover_spec true (some 0) (some 0) [true, true, false]
  refine ⟨h.1 (Or.inr rfl), ?_⟩
  have h3 := h.2.2.1 (by decide)
  exact Prod.ext (by decide) (Prod.ext (by simpa using h3.1) (by simpa using h3.2))

/-- C10: in paged mode every value of the `page` query parameter renders: the
effective page always lies in `[1, total_pages]`; a non-integer parameter or
one below 1 yields page 1; a parameter beyond the page count is clamped to
the last page; and for a non-empty directory the rendered slice of the
effective page is never empty. -/
theorem send_dir_page_clamps (items : List String) (pageStr : List Char) :
    1 ≤ effective_page pageStr items.length ∧
    effective_page pageStr items.length ≤ (total_pages items.length : Int) ∧
    (pythonIntL pageStr = none → effective_page pageStr items.length = 1) ∧
    (∀ v : Int, pythonIntL pageStr = some v → v < 1 →
      effective_page pageStr items.length = 1) ∧
    (∀ v : Int, pythonIntL pageStr = some v →
      (total_pages items.length : Int) < v →
      effective_page pageStr items.length = (total_pages items.length : Int)) ∧
    (items ≠ [] → items_to_show items pageStr ≠ []) := by
  have htp : 1 ≤ total_pages items.length := le_max_left 1 _
  have htpI : (1 : Int) ≤ (total_pages items.length : Int) := by exact_mod_cast htp
  have hpfp : 1 ≤ page_from_param pageStr := by
    unfold page_from_param
    rcases pythonIntL pageStr with _ | v
    · exact le_refl 1
    · exact le_max_left 1 v
  have heff1 : 1 ≤ effective_page pageStr items.length := by
    simp only [effective_page]
    split_ifs with hgt
    · exact htpI
    · exact hpfp
  have hefftp : effective_page pageStr items.length
      ≤ (total_pages items.length : Int) := by
    simp only [effective_page]
    split_ifs with hgt
    · exact le_refl _
    · exact le_of_not_lt hgt
  refine ⟨heff1, hefftp, ?_, ?_, ?_, ?_⟩
  · intro hnone
    simp only [effective_page, page_from_param, hnone]
    rw [if_neg (not_lt.mpr htpI)]
  · intro v hv hlt
    simp only [effective_page, page_from_param, hv]
    rw [max_eq_left (by omega), if_neg (not_lt.mpr htpI)]
  · intro v hv hgt
    simp only [effective_page, page_from_param, hv]
    rw [max_eq_right (by omega), if_pos hgt]
  · intro hne
    simp only [items_to_show]
    have hlen : 0 < items.length := List.length_pos.mpr hne
    have hdiv10 : total_pages items.length * 10 ≤ items.length + 9 := by
      unfold total_pages
      have hd1 : (items.length + 10 - 1) / 10 * 10 ≤ items.length + 9 :=
        Nat.div_mul_le_self (items.length + 10 - 1) 10
      have hd2 : 1 ≤ (items.length + 10 - 1) / 10 :=
        (Nat.one_le_div_iff (by omega)).mpr (by omega)
      omega
    have hstart : ((effective_page pageStr items.length - 1) * 10).toNat
        < items.length := by
      have h3 : (effective_page pageStr items.length - 1) * 10
          ≤ ((total_pages items.length : Int) - 1) * 10 := by
        apply mul_le_mul_of_nonneg_right _ (by norm_num)
        omega
      omega
    intro hcontra
    rcases List.take_eq_nil_iff.mp hcontra with h10 | hdropnil
    · exact absurd h10 (by norm_num)
    · rw [List.drop_eq_nil_iff] at hdropnil
      omega

/-- C10 witness: 23 entries, `page=99` clamps to page 3, which renders the
last 3 entries. -/
theorem send_dir_page_clamps_witness :
    effective_page ("99".toList) ((List.range 23).map toString).length = 3 ∧
    items_to_show ((List.range 23).map toString) ("99".toList) ≠ [] := by
  have h := send_dir_page_clamps ((List.range 23).map toString) ("99".toList)
  refine ⟨?_, h.2.2.2.2.2 (by decide)⟩
  have h5 := h.2.2.2.2.1 99 (by decide) (by decide)
  simpa using h5
